import Mathlib

/-!
Verification of the trading-dashboard indicator engine.

Shallow embedding of the Python backend (services/indicator_calc.py and
routers/data.py) into Lean 4:

* Python floats are modelled as exact rationals; the IEEE special values
  that the code can actually produce (inf/NaN in the RSI division, NaN in
  a rolling window that is not yet full) are modelled explicitly as
  Option values or by the branch the special value forces downstream.
* datetime.date is modelled by the proleptic-Gregorian ordinal, an
  integer, exactly as Python computes it (date.toordinal); timedelta
  subtraction is integer subtraction.
* the SQLAlchemy store is modelled as a list of rows; the query
  filter(symbol == s.upper(), date >= lo, date <= hi).order_by(date.asc())
  is modelled as list filtering followed by a stable insertion sort on
  the date field.
* {"error": msg} vs. data-dict results are modelled as Except String.
-/

/- ### Calendar model (Python datetime.date) -/

/-- Leap year as in Python: y % 4 == 0 and (y % 100 != 0 or y % 400 == 0). -/
def isLeapYear (y : ℤ) : Bool :=
  y % 4 = 0 && (y % 100 ≠ 0 || y % 400 = 0)

/-- Days before January 1 of year y (Python datetime._days_before_year). -/
def daysBeforeYear (y : ℤ) : ℤ :=
  365 * (y - 1) + (y - 1).fdiv 4 - (y - 1).fdiv 100 + (y - 1).fdiv 400

/-- Ordinal of January 1 of year y; date(1, 1, 1).toordinal() = 1. -/
def jan1Ordinal (y : ℤ) : ℤ :=
  daysBeforeYear y + 1

/-- Year of an ordinal (Python datetime._ord2ymd, year part). -/
def yearOfOrdinal (n : ℤ) : ℤ :=
  let n0 := n - 1
  let n400 := n0.fdiv 146097
  let r1 := n0 % 146097
  let n100 := r1.fdiv 36524
  let r2 := r1 % 36524
  let n4 := r2.fdiv 1461
  let r3 := r2 % 1461
  let n1 := r3.fdiv 365
  let y := 400 * n400 + 100 * n100 + 4 * n4 + n1 + 1
  if n1 = 4 ∨ n100 = 4 then y - 1 else y

/-- routers/data.py calculate_start_date: timeframe code to window start.
timedelta(weeks=1) is 7 days; the final else branch is the 1Y fallback. -/
def calculate_start_date (simulated_date : ℤ) (timeframe : String) : ℤ :=
  if timeframe = "1W" then simulated_date - 7
  else if timeframe = "1M" then simulated_date - 30
  else if timeframe = "3M" then simulated_date - 90
  else if timeframe = "6M" then simulated_date - 180
  else if timeframe = "1Y" then simulated_date - 365
  else if timeframe = "YTD" then jan1Ordinal (yearOfOrdinal simulated_date)
  else if timeframe = "5Y" then simulated_date - 1825
  else simulated_date - 365

/- ### pandas primitives over exact rationals -/

/-- Tail of Series.ewm(span, adjust=False).mean(): given the previous
smoothed value y, each step produces (1-a)*y + a*x. -/
def ewmFrom (a y : ℚ) : List ℚ → List ℚ
  | [] => []
  | x :: xs => ((1 - a) * y + a * x) :: ewmFrom a ((1 - a) * y + a * x) xs

/-- Series.ewm(span, adjust=False).mean(): seeded with the first element. -/
def ewmMean (a : ℚ) : List ℚ → List ℚ
  | [] => []
  | x :: xs => x :: ewmFrom a x xs

/-- Trailing window of the last `period` entries ending at index i
(the window Series.rolling(period) aggregates at i once it is full). -/
def windowAt (period : ℕ) (l : List ℚ) (i : ℕ) : List ℚ :=
  (l.drop (i + 1 - period)).take period

/-- Series.rolling(window=period).mean(): NaN (here: none) until the
window is full, then the arithmetic mean of the trailing window.
Only used with period >= 1, as pandas rejects window = 0. -/
def rollingMean (period : ℕ) (l : List ℚ) : List (Option ℚ) :=
  (List.range l.length).map fun i =>
    if i + 1 < period then none
    else some ((windowAt period l i).sum / (period : ℚ))

/- ### Indicator calculators (services/indicator_calc.py) -/

/-- calculate_ema: [None]*(period-1) ++ ewm values from index period-1 on,
after an all-None short-circuit for inputs shorter than period.
The smoothing factor for span=period is 2/(period+1). -/
def calculate_ema (data : List ℚ) (period : ℕ) : List (Option ℚ) :=
  if data.length < period then List.replicate data.length none
  else
    List.replicate (period - 1) none ++
      ((ewmMean (2 / ((period : ℚ) + 1)) data).drop (period - 1)).map some

/-- calculate_sma: rolling mean, all-None for inputs shorter than period. -/
def calculate_sma (data : List ℚ) (period : ℕ) : List (Option ℚ) :=
  if data.length < period then List.replicate data.length none
  else rollingMean period data

/-- Gains series of calculate_rsi: delta = series.diff();
gains = delta.where(delta > 0, 0).  The NaN at diff index 0 compares
False against 0, so .where replaces it by 0. -/
def deltaGains (data : List ℚ) : List ℚ :=
  (List.range data.length).map fun i =>
    if i = 0 then 0
    else if 0 < data.getD i 0 - data.getD (i - 1) 0 then
      data.getD i 0 - data.getD (i - 1) 0
    else 0

/-- Losses series of calculate_rsi: losses = -delta.where(delta < 0, 0). -/
def deltaLosses (data : List ℚ) : List ℚ :=
  (List.range data.length).map fun i =>
    if i = 0 then 0
    else if data.getD i 0 - data.getD (i - 1) 0 < 0 then
      -(data.getD i 0 - data.getD (i - 1) 0)
    else 0

/-- One entry of calculate_rsi.  avg_gains and avg_losses are the rolling
means (NaN while the window is not full, modelled by the i+1 < period
branch).  rs = avg_gains/avg_losses is IEEE float division: with
avg_losses = 0 it yields NaN when avg_gains = 0 (an undefined entry,
none) and +inf when avg_gains > 0, in which case
100 - 100/(1 + inf) = 100 - 0 = 100, a defined entry.  With
avg_losses > 0 the arithmetic is ordinary. -/
def rsiAt (period : ℕ) (gains losses : List ℚ) (i : ℕ) : Option ℚ :=
  if i + 1 < period then none
  else if (windowAt period losses i).sum / (period : ℚ) = 0 then
    (if (windowAt period gains i).sum / (period : ℚ) = 0 then none else some 100)
  else some (100 - 100 /
    (1 + ((windowAt period gains i).sum / (period : ℚ)) /
      ((windowAt period losses i).sum / (period : ℚ))))

/-- calculate_rsi: all-None for inputs of length < period+1, otherwise
rsiAt at every index. -/
def calculate_rsi (data : List ℚ) (period : ℕ) : List (Option ℚ) :=
  if data.length < period + 1 then List.replicate data.length none
  else (List.range data.length).map (rsiAt period (deltaGains data) (deltaLosses data))

/-- Series.pct_change(): NaN at index 0; at i >= 1 the value
(x_i - x_{i-1})/x_{i-1}.  A zero previous value makes the entry
non-finite (NaN from 0/0, +-inf otherwise); every non-finite entry
poisons any rolling std window containing it to NaN, so both are
modelled as none here. -/
def pctChange (data : List ℚ) : List (Option ℚ) :=
  (List.range data.length).map fun i =>
    if i = 0 then none
    else if data.getD (i - 1) 0 = 0 then none
    else some ((data.getD i 0 - data.getD (i - 1) 0) / data.getD (i - 1) 0)

/-- Sample variance with ddof=1 (pandas rolling .std() squared). -/
def sampleVariance (w : List ℚ) : ℚ :=
  let m := w.sum / (w.length : ℚ)
  (w.map fun x => (x - m) ^ 2).sum / ((w.length : ℚ) - 1)

/-- calculate_volatility: rolling std of pct_change times sqrt(252) times
100.  The square root is irrational, so the model carries the square of
the source value (variance * 252 * 100^2); which entries are defined, and
their dates, are exactly those of the source. -/
def calculate_volatility (data : List ℚ) (period : ℕ) : List (Option ℚ) :=
  if data.length < period + 1 then List.replicate data.length none
  else
    let returns := pctChange data
    (List.range data.length).map fun i =>
      if i + 1 < period then none
      else
        let w := (returns.drop (i + 1 - period)).take period
        if w.all Option.isSome then some (2520000 * sampleVariance (w.filterMap id))
        else none

/-- Loop body of calculate_obv over (close, volume) pairs from index 1 on,
carrying the previous close and the running OBV value. -/
def obvAux (prevClose acc : ℚ) : List (ℚ × ℚ) → List ℚ
  | [] => []
  | (c, v) :: rest =>
    let acc2 := if prevClose < c then acc + v else if c < prevClose then acc - v else acc
    acc2 :: obvAux c acc2 rest

/-- calculate_obv: [None]*len on mismatched lengths or fewer than 2 bars,
otherwise the cumulative series seeded with 0. -/
def calculate_obv (close_prices volumes : List ℚ) : List (Option ℚ) :=
  if close_prices.length ≠ volumes.length ∨ close_prices.length < 2 then
    List.replicate close_prices.length none
  else
    match close_prices, volumes with
    | c :: cs, _ :: vs => some 0 :: (obvAux c 0 (cs.zip vs)).map some
    | _, _ => []

/-- Loop body of calculate_vpt, guarding the division by a zero previous
close by keeping the running value unchanged. -/
def vptAux (prevClose acc : ℚ) : List (ℚ × ℚ) → List ℚ
  | [] => []
  | (c, v) :: rest =>
    let acc2 := if prevClose ≠ 0 then acc + v * ((c - prevClose) / prevClose) else acc
    acc2 :: vptAux c acc2 rest

/-- calculate_vpt: [None]*len on mismatched lengths or fewer than 2 bars,
otherwise the cumulative series seeded with 0. -/
def calculate_vpt (close_prices volumes : List ℚ) : List (Option ℚ) :=
  if close_prices.length ≠ volumes.length ∨ close_prices.length < 2 then
    List.replicate close_prices.length none
  else
    match close_prices, volumes with
    | c :: cs, _ :: vs => some 0 :: (vptAux c 0 (cs.zip vs)).map some
    | _, _ => []

/-- Pointwise subtraction used for the MACD line and histogram: defined
only where both operands are. -/
def subOpt : Option ℚ → Option ℚ → Option ℚ
  | some a, some b => some (a - b)
  | _, _ => none

/-- Result dict of calculate_macd. -/
structure MACDResult where
  macd : List (Option ℚ)
  macdSignal : List (Option ℚ)
  histogram : List (Option ℚ)
  deriving DecidableEq

/-- The macd_line local of calculate_macd: EMA(fast) - EMA(slow) where
both are defined (the source loops i over range(len(data)) indexing both
EMA lists, which have the input's length). -/
def macdLine (data : List ℚ) (fast_period slow_period : ℕ) : List (Option ℚ) :=
  (List.range data.length).map fun i =>
    subOpt ((calculate_ema data fast_period).getD i none)
      ((calculate_ema data slow_period).getD i none)

/-- The signal_line local of calculate_macd: EMA(signal) of the compacted
non-None MACD values, left-padded with None back to the MACD line's
length when at least signal_period compacted values exist, else all None
of the input's length. -/
def macdSignalLine (data : List ℚ) (fast_period slow_period signal_period : ℕ) :
    List (Option ℚ) :=
  let macd_values := (macdLine data fast_period slow_period).filterMap id
  if signal_period ≤ macd_values.length then
    List.replicate ((macdLine data fast_period slow_period).length -
        (calculate_ema macd_values signal_period).length) none ++
      calculate_ema macd_values signal_period
  else List.replicate data.length none

/-- calculate_macd: all-None for inputs shorter than slow_period;
otherwise the MACD line, the signal line, and the histogram, the
pointwise difference of the two where both are defined. -/
def calculate_macd (data : List ℚ) (fast_period slow_period signal_period : ℕ) :
    MACDResult :=
  if data.length < slow_period then
    ⟨List.replicate data.length none, List.replicate data.length none,
      List.replicate data.length none⟩
  else
    ⟨macdLine data fast_period slow_period,
      macdSignalLine data fast_period slow_period signal_period,
      (List.range data.length).map fun i =>
        subOpt ((macdLine data fast_period slow_period).getD i none)
          ((macdSignalLine data fast_period slow_period signal_period).getD i none)⟩

/- ### Data store model (models/database.py StockData, SQLAlchemy query) -/

/-- One row of the stock_data table.  Prices are Numeric(10,2) decimals
read back through float(); volume is a BigInteger read through float().
The date is the proleptic-Gregorian ordinal of the Date column. -/
structure StockData where
  symbol : String
  date : ℤ
  openPrice : ℚ
  high : ℚ
  low : ℚ
  close : ℚ
  adj_close : ℚ
  volume : ℤ
  deriving DecidableEq

/-- Python str.upper() for the ASCII symbols this backend stores. -/
def strUpper (s : String) : String :=
  ⟨s.data.map Char.toUpper⟩

/-- Ascending insertion of a row by date (stable). -/
def insertByDate (b : StockData) : List StockData → List StockData
  | [] => [b]
  | c :: cs => if b.date ≤ c.date then b :: c :: cs else c :: insertByDate b cs

/-- order_by(StockData.date.asc()) on the filtered rows. -/
def sortByDate : List StockData → List StockData
  | [] => []
  | b :: bs => insertByDate b (sortByDate bs)

/-- db.query(StockData).filter(symbol == s.upper(), date >= lo, date <= hi)
.order_by(date.asc()).all() — the windowed bar query every indicator
function issues. -/
def queryBars (db : List StockData) (symbol : String) (lo hi : ℤ) : List StockData :=
  sortByDate (db.filter fun b =>
    b.symbol == strUpper symbol && decide (lo ≤ b.date) && decide (b.date ≤ hi))

/-- db.query(StockData).filter(symbol == s.upper())
.order_by(date.desc()).first(), keeping only the .date it is read for:
the latest stored date for the symbol, if any row exists. -/
def latestBarDate (db : List StockData) (symbol : String) : Option ℤ :=
  ((db.filter fun b => b.symbol == strUpper symbol).map (·.date)).max?

/-- Simulated-date resolution shared by every get_* function: an explicit
date is used as given; otherwise the latest stored date for the symbol;
if the symbol has no rows at all this is none and the caller returns the
"No data found for symbol" error. -/
def resolveSimDate (db : List StockData) (symbol : String)
    (simulated_date : Option ℤ) : Option ℤ :=
  match simulated_date with
  | some d => some d
  | none => latestBarDate db symbol

/-- The window query at a resolved simulated date: start date from the
timeframe, then the bar query clamped to [start_date, simulated_date]. -/
def windowBars (db : List StockData) (symbol : String) (sim : ℤ)
    (timeframe : String) : List StockData :=
  queryBars db symbol (calculate_start_date sim timeframe) sim

/-- Shared shape of every get_* function in services/indicator_calc.py
(each repeats this block verbatim): resolve the simulated date, erroring
when the symbol has no rows; query the window; error when no bars fall
in the window. -/
def fetchWindow (db : List StockData) (symbol : String)
    (simulated_date : Option ℤ) (timeframe : String) :
    Except String (ℤ × List StockData) :=
  match resolveSimDate db symbol simulated_date with
  | none => .error ("No data found for symbol " ++ symbol)
  | some sim =>
    let stock_data := windowBars db symbol sim timeframe
    if stock_data.isEmpty then
      .error ("No data found for " ++ symbol ++ " in timeframe " ++ timeframe)
    else .ok (sim, stock_data)

/- ### Result payloads and the get_* functions -/

/-- One row of get_stock_indicators' combined result. -/
structure IndicatorRow where
  date : ℤ
  ema : Option ℚ
  macd : Option ℚ
  macd_signal : Option ℚ
  macd_histogram : Option ℚ
  deriving DecidableEq

/-- Result dict of get_stock_indicators. -/
structure StockIndicatorsResult where
  symbol : String
  simulated_date : ℤ
  timeframe : String
  ema_period : ℕ
  indicators : List IndicatorRow
  deriving DecidableEq

/-- Result dict of get_ema_data / get_sma_data / get_rsi_data /
get_vix_data: a symbol, the period, and (date, value) points. -/
structure SeriesResult where
  symbol : String
  period : ℕ
  data : List (ℤ × ℚ)
  deriving DecidableEq

/-- Result dict of get_obv_data / get_vpt_data (no period field). -/
structure VolumeSeriesResult where
  symbol : String
  data : List (ℤ × ℚ)
  deriving DecidableEq

/-- One point of get_macd_data: emitted when the MACD line is defined,
carrying whatever the signal and histogram hold there. -/
structure MACDPoint where
  date : ℤ
  macd : ℚ
  macdSignal : Option ℚ
  histogram : Option ℚ
  deriving DecidableEq

/-- Result dict of get_macd_data. -/
structure MACDDataResult where
  symbol : String
  fast_period : ℕ
  slow_period : ℕ
  signal_period : ℕ
  data : List MACDPoint
  deriving DecidableEq

/-- get_stock_indicators: EMA(ema_period) and MACD(12,26,9) over the
window's closes, zipped back onto every bar of the window (the source
loops i over enumerate(stock_data) indexing each indicator list, all of
the window's length). -/
def get_stock_indicators (db : List StockData) (symbol : String)
    (simulated_date : Option ℤ) (timeframe : String) (ema_period : ℕ) :
    Except String StockIndicatorsResult :=
  match fetchWindow db symbol simulated_date timeframe with
  | .error e => .error e
  | .ok (sim, stock_data) =>
    let close_prices := stock_data.map (·.close)
    let ema_values := calculate_ema close_prices ema_period
    let macd_data := calculate_macd close_prices 12 26 9
    let indicators :=
      (stock_data.zip (ema_values.zip (macd_data.macd.zip
        (macd_data.macdSignal.zip macd_data.histogram)))).map
        fun bv => ⟨bv.1.date, bv.2.1, bv.2.2.1, bv.2.2.2.1, bv.2.2.2.2⟩
    .ok ⟨strUpper symbol, sim, timeframe, ema_period, indicators⟩

/-- get_ema_data: get_stock_indicators, then keep the rows whose ema is
defined as (date, ema) points. -/
def get_ema_data (db : List StockData) (symbol : String) (period : ℕ)
    (simulated_date : Option ℤ) (timeframe : String) :
    Except String SeriesResult :=
  match get_stock_indicators db symbol simulated_date timeframe period with
  | .error e => .error e
  | .ok result =>
    .ok ⟨strUpper symbol, period,
      result.indicators.filterMap fun r => r.ema.map fun v => (r.date, v)⟩

/-- get_macd_data: MACD over the window's closes; a point per bar whose
MACD-line value is defined, carrying the signal and histogram entries. -/
def get_macd_data (db : List StockData) (symbol : String)
    (fast_period slow_period signal_period : ℕ)
    (simulated_date : Option ℤ) (timeframe : String) :
    Except String MACDDataResult :=
  match fetchWindow db symbol simulated_date timeframe with
  | .error e => .error e
  | .ok (_, stock_data) =>
    let close_prices := stock_data.map (·.close)
    let macd_data := calculate_macd close_prices fast_period slow_period signal_period
    let macd_results :=
      (stock_data.zip (macd_data.macd.zip (macd_data.macdSignal.zip
        macd_data.histogram))).filterMap
        fun bv => bv.2.1.map fun x => ⟨bv.1.date, x, bv.2.2.1, bv.2.2.2⟩
    .ok ⟨strUpper symbol, fast_period, slow_period, signal_period, macd_results⟩

/-- get_sma_data: SMA over the window's closes; the points are the bars
whose SMA entry is defined (None and NaN are both dropped; the source
stores the value under the key "ema" for frontend consistency). -/
def get_sma_data (db : List StockData) (symbol : String) (period : ℕ)
    (simulated_date : Option ℤ) (timeframe : String) :
    Except String SeriesResult :=
  match fetchWindow db symbol simulated_date timeframe with
  | .error e => .error e
  | .ok (_, stock_data) =>
    let close_prices := stock_data.map (·.close)
    let sma_values := calculate_sma close_prices period
    .ok ⟨strUpper symbol, period,
      (stock_data.zip sma_values).filterMap fun bv => bv.2.map fun v => (bv.1.date, v)⟩

/-- get_rsi_data: RSI over the window's closes; the points are the bars
whose RSI entry is defined.  The price_min/price_max scaling the source
computes is dead local state (the emitted value is the raw RSI), so it
is not modelled. -/
def get_rsi_data (db : List StockData) (symbol : String) (period : ℕ)
    (simulated_date : Option ℤ) (timeframe : String) :
    Except String SeriesResult :=
  match fetchWindow db symbol simulated_date timeframe with
  | .error e => .error e
  | .ok (_, stock_data) =>
    let close_prices := stock_data.map (·.close)
    let rsi_values := calculate_rsi close_prices period
    .ok ⟨strUpper symbol, period,
      (stock_data.zip rsi_values).filterMap fun bv => bv.2.map fun v => (bv.1.date, v)⟩

/-- get_obv_data: OBV over the window's closes and volumes; the points
are the bars whose OBV entry is defined (when every entry is None the
loop body never fires and the data list stays empty, which coincides
with filtering; the obv_min/obv_max scaling is dead local state). -/
def get_obv_data (db : List StockData) (symbol : String)
    (simulated_date : Option ℤ) (timeframe : String) :
    Except String VolumeSeriesResult :=
  match fetchWindow db symbol simulated_date timeframe with
  | .error e => .error e
  | .ok (_, stock_data) =>
    let close_prices := stock_data.map (·.close)
    let volumes := stock_data.map fun b => (b.volume : ℚ)
    let obv_values := calculate_obv close_prices volumes
    .ok ⟨strUpper symbol,
      (stock_data.zip obv_values).filterMap fun bv => bv.2.map fun v => (bv.1.date, v)⟩

/-- get_vpt_data: VPT over the window's closes and volumes, assembled
like get_obv_data. -/
def get_vpt_data (db : List StockData) (symbol : String)
    (simulated_date : Option ℤ) (timeframe : String) :
    Except String VolumeSeriesResult :=
  match fetchWindow db symbol simulated_date timeframe with
  | .error e => .error e
  | .ok (_, stock_data) =>
    let close_prices := stock_data.map (·.close)
    let volumes := stock_data.map fun b => (b.volume : ℚ)
    let vpt_values := calculate_vpt close_prices volumes
    .ok ⟨strUpper symbol,
      (stock_data.zip vpt_values).filterMap fun bv => bv.2.map fun v => (bv.1.date, v)⟩

/-- get_vix_data: calculate_volatility over the window's closes; the
points are the bars whose entry is defined (value modelled squared, see
calculate_volatility). -/
def get_vix_data (db : List StockData) (symbol : String) (period : ℕ)
    (simulated_date : Option ℤ) (timeframe : String) :
    Except String SeriesResult :=
  match fetchWindow db symbol simulated_date timeframe with
  | .error e => .error e
  | .ok (_, stock_data) =>
    let close_prices := stock_data.map (·.close)
    let vix_values := calculate_volatility close_prices period
    .ok ⟨strUpper symbol, period,
      (stock_data.zip vix_values).filterMap fun bv => bv.2.map fun v => (bv.1.date, v)⟩

/- ### Shape and bound predicates used by the claims -/

/-- A list of optional values whose undefined entries are exactly the
indices below k: entry i is none iff i < k. -/
def noneIffLt {α : Type} (l : List (Option α)) (k : ℕ) : Prop :=
  ∀ i : Fin l.length, l.get i = none ↔ (i : ℕ) < k

/-- Every date of the list lies in the inclusive window [lo, hi]. -/
def datesWithin (lo hi : ℤ) (ds : List ℤ) : Prop :=
  ∀ d ∈ ds, lo ≤ d ∧ d ≤ hi

/-- Every bar of the list is dated in the inclusive window [lo, hi]. -/
def barsWithin (lo hi : ℤ) (bars : List StockData) : Prop :=
  ∀ b ∈ bars, lo ≤ b.date ∧ b.date ≤ hi

/-- The optional value is defined, lies in [lo, hi] and exceeds strictLo. -/
def definedInRange (o : Option ℚ) (lo hi strictLo : ℚ) : Prop :=
  match o with
  | none => False
  | some r => lo ≤ r ∧ r ≤ hi ∧ strictLo < r

/-- Dates of the rows of a get_stock_indicators result ([] on error). -/
def indicatorDates : Except String StockIndicatorsResult → List ℤ
  | .error _ => []
  | .ok r => r.indicators.map (·.date)

/-- Dates of the points of a SeriesResult ([] on error). -/
def seriesDates : Except String SeriesResult → List ℤ
  | .error _ => []
  | .ok r => r.data.map (·.1)

/-- Dates of the points of a VolumeSeriesResult ([] on error). -/
def volumeSeriesDates : Except String VolumeSeriesResult → List ℤ
  | .error _ => []
  | .ok r => r.data.map (·.1)

/-- Dates of the points of a get_macd_data result ([] on error). -/
def macdDates : Except String MACDDataResult → List ℤ
  | .error _ => []
  | .ok r => r.data.map (·.date)

/- ### Concrete inputs used by the claim witnesses -/

/-- The spec's strictly increasing 16-point integer sequence from 100. -/
def incData16 : List ℚ :=
  [100, 101, 102, 103, 104, 105, 106, 107, 108, 109, 110, 111, 112, 113, 114, 115]

/-- A TSLA bar dated ordinal 738000 (2021-04-15). -/
def wBar1 : StockData := ⟨"TSLA", 738000, 10, 11, 9, 10, 10, 500⟩

/-- A TSLA bar one day later. -/
def wBar2 : StockData := ⟨"TSLA", 738001, 10, 11, 9, 11, 11, 600⟩

/-- A TSLA bar dated after the witness's simulated date. -/
def wBarFuture : StockData := ⟨"TSLA", 738100, 10, 11, 9, 12, 12, 700⟩

/-- A small store holding two in-window bars and one future bar. -/
def wDb : List StockData := [wBar2, wBarFuture, wBar1]

set_option maxRecDepth 2000

/- ### Basic lemmas about the pandas primitives -/

theorem ewmFrom_length (a y : ℚ) (l : List ℚ) : (ewmFrom a y l).length = l.length := by
  induction l generalizing y with
  | nil => rfl
  | cons x xs ih => simp [ewmFrom, ih]

theorem ewmMean_length (a : ℚ) (l : List ℚ) : (ewmMean a l).length = l.length := by
  cases l with
  | nil => rfl
  | cons x xs => simp [ewmMean, ewmFrom_length]

theorem calculate_ema_length (data : List ℚ) (period : ℕ) :
    (calculate_ema data period).length = data.length := by
  unfold calculate_ema
  split
  · simp
  · rename_i h
    simp only [List.length_append, List.length_replicate, List.length_map,
      List.length_drop, ewmMean_length]
    omega

theorem calculate_sma_length (data : List ℚ) (period : ℕ) :
    (calculate_sma data period).length = data.length := by
  unfold calculate_sma
  split
  · simp
  · simp [rollingMean]

theorem noneIffLt_replicate_append {α : Type} (k : ℕ) (l : List α) :
    noneIffLt (List.replicate k (none : Option α) ++ l.map some) k := by
  rintro ⟨i, hi⟩
  simp only [List.get_eq_getElem]
  by_cases h : i < k
  · rw [List.getElem_append_left (by simpa using h)]
    simp [h]
  · rw [List.getElem_append_right (by simpa using h)]
    simp [h]

theorem calculate_ema_shape (data : List ℚ) (period : ℕ) (hp : 1 ≤ period)
    (hl : period ≤ data.length) :
    noneIffLt (calculate_ema data period) (period - 1) := by
  have h1 : ¬ data.length < period := by omega
  have he : calculate_ema data period
      = List.replicate (period - 1) none ++
        ((ewmMean (2 / ((period : ℚ) + 1)) data).drop (period - 1)).map some := by
    unfold calculate_ema
    rw [if_neg h1]
  rw [he]
  exact noneIffLt_replicate_append _ _

theorem calculate_sma_shape (data : List ℚ) (period : ℕ) (hp : 1 ≤ period)
    (hl : period ≤ data.length) :
    noneIffLt (calculate_sma data period) (period - 1) := by
  have h1 : ¬ data.length < period := by omega
  rintro ⟨i, hi⟩
  have hi2 : i < data.length := by
    simpa [calculate_sma_length] using hi
  simp only [calculate_sma, if_neg h1, rollingMean, List.get_eq_getElem] at hi ⊢
  rw [List.getElem_map, List.getElem_range]
  split
  · simp
    omega
  · simp
    omega

/-- C3: for every period >= 1, calculate_ema and calculate_sma return an
output of the input's length; when the input has at least period
entries, entry i is undefined exactly when i < period-1 (so the first
period-1 entries are undefined and every later entry is defined); when
the input is shorter than period, the output is all-undefined of the
input's length. -/
theorem ema_sma_shape_claim (data : List ℚ) (period : ℕ) (hp : 1 ≤ period) :
    ((calculate_ema data period).length = data.length ∧
     (calculate_sma data period).length = data.length) ∧
    (period ≤ data.length →
      noneIffLt (calculate_ema data period) (period - 1) ∧
      noneIffLt (calculate_sma data period) (period - 1)) ∧
    (data.length < period →
      calculate_ema data period = List.replicate data.length none ∧
      calculate_sma data period = List.replicate data.length none) := by
  refine ⟨⟨calculate_ema_length data period, calculate_sma_length data period⟩, ?_, ?_⟩
  · intro hl
    exact ⟨calculate_ema_shape data period hp hl, calculate_sma_shape data period hp hl⟩
  · intro hs
    constructor
    · unfold calculate_ema
      rw [if_pos hs]
    · unfold calculate_sma
      rw [if_pos hs]

/-- C3 witness: EMA(3) and SMA(3) on the 16-point sequence have exactly
two undefined leading entries. -/
theorem ema_sma_shape_claim_witness :
    noneIffLt (calculate_ema incData16 3) 2 ∧ noneIffLt (calculate_sma incData16 3) 2 :=
  (ema_sma_shape_claim incData16 3 (by decide)).2.1 (by decide)

/-- C8: for any timeframe code outside the known set, calculate_start_date
returns the simulated date minus 365 days, exactly the 1Y result, and
(being a total function) raises no error. -/
theorem calculate_start_date_fallback (d : ℤ) (tf : String)
    (h : tf ∉ (["1W", "1M", "3M", "6M", "1Y", "YTD", "5Y"] : List String)) :
    calculate_start_date d tf = d - 365 ∧
    calculate_start_date d tf = calculate_start_date d "1Y" := by
  simp only [List.mem_cons, List.not_mem_nil, or_false] at h
  push_neg at h
  obtain ⟨h1, h2, h3, h4, h5, h6, h7⟩ := h
  refine ⟨?_, ?_⟩ <;>
    simp [calculate_start_date, h1, h2, h3, h4, h5, h6, h7]

/-- C8 witness: the unknown code 2Y resolves like 1Y. -/
theorem calculate_start_date_fallback_witness :
    calculate_start_date 738050 "2Y" = 738050 - 365 ∧
    calculate_start_date 738050 "2Y" = calculate_start_date 738050 "1Y" :=
  calculate_start_date_fallback 738050 "2Y" (by decide)

/-- C10: on inputs of unequal lengths (or shorter than 2), calculate_obv
and calculate_vpt return, without raising, the all-None list of the
close-price list's length. -/
theorem obv_vpt_mismatch_degrade (closes volumes : List ℚ)
    (h : closes.length ≠ volumes.length ∨ closes.length < 2) :
    calculate_obv closes volumes = List.replicate closes.length none ∧
    calculate_vpt closes volumes = List.replicate closes.length none := by
  constructor
  · unfold calculate_obv
    rw [if_pos h]
  · unfold calculate_vpt
    rw [if_pos h]

/-- C10 witness: three closes against two volumes degrade to [None]*3. -/
theorem obv_vpt_mismatch_degrade_witness :
    calculate_obv [100, 102, 101] [1000, 1200] = List.replicate 3 none ∧
    calculate_vpt [100, 102, 101] [1000, 1200] = List.replicate 3 none :=
  obv_vpt_mismatch_degrade [100, 102, 101] [1000, 1200] (by decide)

/- ### Lemmas for the MACD signal line -/

theorem subOpt_eq_none_iff (a b : Option ℚ) :
    subOpt a b = none ↔ a = none ∨ b = none := by
  cases a <;> cases b <;> simp [subOpt]

theorem macdLine_length (data : List ℚ) (fast_period slow_period : ℕ) :
    (macdLine data fast_period slow_period).length = data.length := by
  simp [macdLine]

theorem length_filterMap_of_noneIffLt {α : Type} (l : List (Option α)) (k : ℕ)
    (hk : k ≤ l.length) (h : noneIffLt l k) :
    (l.filterMap id).length = l.length - k := by
  induction l generalizing k with
  | nil => simp
  | cons x xs ih =>
    cases k with
    | zero =>
      have h0 := h ⟨0, by simp⟩
      simp only [List.get_eq_getElem, List.getElem_cons_zero, Nat.lt_irrefl,
        iff_false] at h0
      obtain ⟨a, rfl⟩ := Option.ne_none_iff_exists'.mp h0
      have hxs : noneIffLt xs 0 := by
        rintro ⟨i, hi⟩
        have := h ⟨i + 1, by simpa using Nat.succ_lt_succ hi⟩
        simpa using this
      simp [List.filterMap_cons, ih 0 (Nat.zero_le _) hxs]
    | succ j =>
      have h0 := h ⟨0, by simp⟩
      simp only [List.get_eq_getElem, List.getElem_cons_zero, Nat.succ_pos,
        iff_true] at h0
      subst h0
      have hxs : noneIffLt xs j := by
        rintro ⟨i, hi⟩
        have := h ⟨i + 1, by simpa using Nat.succ_lt_succ hi⟩
        simpa [Nat.succ_lt_succ_iff] using this
      have hk2 : j ≤ xs.length := by simpa using hk
      simp [List.filterMap_cons, ih j hk2 hxs]

theorem noneIffLt_replicate_append_of {α : Type} (k : ℕ) (l : List (Option α)) (k2 : ℕ)
    (h : noneIffLt l k2) :
    noneIffLt (List.replicate k (none : Option α) ++ l) (k + k2) := by
  rintro ⟨i, hi⟩
  simp only [List.get_eq_getElem]
  have hi2 : i < k + l.length := by simpa using hi
  by_cases hik : i < k
  · rw [List.getElem_append_left (by simpa using hik)]
    simp only [List.getElem_replicate, true_iff]
    omega
  · rw [List.getElem_append_right (by simpa using hik)]
    have hlen : i - (List.replicate k (none : Option α)).length < l.length := by
      simp
      omega
    have h2 := h ⟨i - (List.replicate k (none : Option α)).length, hlen⟩
    simp only [List.get_eq_getElem] at h2
    rw [h2]
    simp only [List.length_replicate]
    omega

theorem macdLine_shape (data : List ℚ) (fast_period slow_period : ℕ)
    (hf : 1 ≤ fast_period) (hfs : fast_period ≤ slow_period)
    (hsl : slow_period ≤ data.length) :
    noneIffLt (macdLine data fast_period slow_period) (slow_period - 1) := by
  rintro ⟨i, hi⟩
  have hlen : i < data.length := by simpa [macdLine] using hi
  simp only [macdLine, List.get_eq_getElem]
  rw [List.getElem_map, List.getElem_range]
  rw [subOpt_eq_none_iff]
  have hf_len : i < (calculate_ema data fast_period).length := by
    rw [calculate_ema_length]; exact hlen
  have hs_len : i < (calculate_ema data slow_period).length := by
    rw [calculate_ema_length]; exact hlen
  rw [List.getD_eq_getElem _ _ hf_len, List.getD_eq_getElem _ _ hs_len]
  have h1 := calculate_ema_shape data fast_period hf (le_trans hfs hsl) ⟨i, hf_len⟩
  have h2 := calculate_ema_shape data slow_period (le_trans hf hfs) hsl ⟨i, hs_len⟩
  simp only [List.get_eq_getElem] at h1 h2
  rw [h1, h2]
  omega

/-- C4: with 1 <= fast <= slow, 1 <= signal and input length
N >= slow+signal-1, the signal line of calculate_macd is EMA(signal) of
the compacted non-None MACD-line values left-padded with None back to
length N; its first slow+signal-2 entries are undefined and every later
entry is defined. -/
theorem calculate_macd_signal_claim (data : List ℚ) (fast_period slow_period signal_period : ℕ)
    (hf : 1 ≤ fast_period) (hfs : fast_period ≤ slow_period) (hs : 1 ≤ signal_period)
    (hlen : slow_period + signal_period - 1 ≤ data.length) :
    (calculate_macd data fast_period slow_period signal_period).macdSignal
      = List.replicate (slow_period - 1) none ++
        calculate_ema
          ((calculate_macd data fast_period slow_period signal_period).macd.filterMap id)
          signal_period ∧
    (calculate_macd data fast_period slow_period signal_period).macdSignal.length
      = data.length ∧
    noneIffLt (calculate_macd data fast_period slow_period signal_period).macdSignal
      (slow_period + signal_period - 2) := by
  have hsl : slow_period ≤ data.length := by omega
  have hneg : ¬ data.length < slow_period := by omega
  have hmacd : (calculate_macd data fast_period slow_period signal_period).macd
      = macdLine data fast_period slow_period := by
    unfold calculate_macd
    rw [if_neg hneg]
  have hsig : (calculate_macd data fast_period slow_period signal_period).macdSignal
      = macdSignalLine data fast_period slow_period signal_period := by
    unfold calculate_macd
    rw [if_neg hneg]
  have hshape := macdLine_shape data fast_period slow_period hf hfs hsl
  have hklen : slow_period - 1 ≤ (macdLine data fast_period slow_period).length := by
    rw [macdLine_length]
    omega
  have hMlen : ((macdLine data fast_period slow_period).filterMap id).length
      = data.length - (slow_period - 1) := by
    rw [length_filterMap_of_noneIffLt _ _ hklen hshape, macdLine_length]
  have hMge : signal_period ≤ ((macdLine data fast_period slow_period).filterMap id).length := by
    rw [hMlen]
    omega
  have hemalen :
      (calculate_ema ((macdLine data fast_period slow_period).filterMap id) signal_period).length
        = data.length - (slow_period - 1) := by
    rw [calculate_ema_length, hMlen]
  have hcount : (macdLine data fast_period slow_period).length -
      (calculate_ema ((macdLine data fast_period slow_period).filterMap id)
        signal_period).length = slow_period - 1 := by
    rw [macdLine_length, hemalen]
    omega
  have hsigline : macdSignalLine data fast_period slow_period signal_period
      = List.replicate (slow_period - 1) none ++
        calculate_ema ((macdLine data fast_period slow_period).filterMap id) signal_period := by
    unfold macdSignalLine
    rw [if_pos hMge, hcount]
  refine ⟨?_, ?_, ?_⟩
  · rw [hsig, hmacd, hsigline]
  · rw [hsig, hsigline]
    simp only [List.length_append, List.length_replicate, hemalen]
    omega
  · rw [hsig, hsigline]
    have hshape2 := calculate_ema_shape
      ((macdLine data fast_period slow_period).filterMap id) signal_period hs hMge
    have hsum : slow_period + signal_period - 2 = (slow_period - 1) + (signal_period - 1) := by
      omega
    rw [hsum]
    exact noneIffLt_replicate_append_of _ _ _ hshape2

/-- C4 witness: MACD(2,3,2) on a 6-point series has a signal line whose
first 3 entries are undefined and whose later entries are defined. -/
theorem calculate_macd_signal_claim_witness :
    noneIffLt (calculate_macd [1, 2, 3, 4, 5, 6] 2 3 2).macdSignal 3 :=
  (calculate_macd_signal_claim [1, 2, 3, 4, 5, 6] 2 3 2
    (by decide) (by decide) (by decide) (by decide)).2.2

/- ### Lemmas for the cumulative OBV and VPT recursions -/

theorem obvAux_length (pc acc : ℚ) (ps : List (ℚ × ℚ)) :
    (obvAux pc acc ps).length = ps.length := by
  induction ps generalizing pc acc with
  | nil => rfl
  | cons x rest ih =>
    obtain ⟨c, v⟩ := x
    simp [obvAux, ih]

theorem vptAux_length (pc acc : ℚ) (ps : List (ℚ × ℚ)) :
    (vptAux pc acc ps).length = ps.length := by
  induction ps generalizing pc acc with
  | nil => rfl
  | cons x rest ih =>
    obtain ⟨c, v⟩ := x
    simp [vptAux, ih]

theorem getD_map_some (A : List ℚ) (k : ℕ) (hk : k < A.length) :
    (A.map some).getD k none = some (A.getD k 0) := by
  rw [List.getD_eq_getElem _ _ (by simpa using hk), List.getElem_map,
    List.getD_eq_getElem _ _ hk]

theorem getD_zip (l1 l2 : List ℚ) (k : ℕ) (hk : k < l1.length) (hk2 : k < l2.length) :
    (l1.zip l2).getD k (0, 0) = (l1.getD k 0, l2.getD k 0) := by
  have hz : k < (l1.zip l2).length := by
    rw [List.length_zip]
    omega
  rw [List.getD_eq_getElem _ _ hz, List.getElem_zip,
    List.getD_eq_getElem _ _ hk, List.getD_eq_getElem _ _ hk2]

theorem obvAux_getD_succ (ps : List (ℚ × ℚ)) (pc acc : ℚ) (i : ℕ)
    (h : i + 1 < ps.length) :
    (obvAux pc acc ps).getD (i + 1) 0 =
      (if (ps.getD i (0, 0)).1 < (ps.getD (i + 1) (0, 0)).1 then
        (obvAux pc acc ps).getD i 0 + (ps.getD (i + 1) (0, 0)).2
      else if (ps.getD (i + 1) (0, 0)).1 < (ps.getD i (0, 0)).1 then
        (obvAux pc acc ps).getD i 0 - (ps.getD (i + 1) (0, 0)).2
      else (obvAux pc acc ps).getD i 0) := by
  induction ps generalizing pc acc i with
  | nil => simp at h
  | cons x rest ih =>
    obtain ⟨c, v⟩ := x
    cases i with
    | zero =>
      cases rest with
      | nil => simp at h
      | cons y rest2 =>
        obtain ⟨c1, v1⟩ := y
        simp [obvAux]
    | succ j =>
      have hj : j + 1 < rest.length := by
        simpa using h
      simp only [obvAux, List.getD_cons_succ]
      exact ih _ _ j hj

theorem vptAux_getD_succ (ps : List (ℚ × ℚ)) (pc acc : ℚ) (i : ℕ)
    (h : i + 1 < ps.length) :
    (vptAux pc acc ps).getD (i + 1) 0 =
      (if (ps.getD i (0, 0)).1 = 0 then (vptAux pc acc ps).getD i 0
      else (vptAux pc acc ps).getD i 0 + (ps.getD (i + 1) (0, 0)).2 *
        (((ps.getD (i + 1) (0, 0)).1 - (ps.getD i (0, 0)).1) / (ps.getD i (0, 0)).1)) := by
  induction ps generalizing pc acc i with
  | nil => simp at h
  | cons x rest ih =>
    obtain ⟨c, v⟩ := x
    cases i with
    | zero =>
      cases rest with
      | nil => simp at h
      | cons y rest2 =>
        obtain ⟨c1, v1⟩ := y
        by_cases hc : c = 0
        · simp [vptAux, hc]
        · simp [vptAux, hc]
    | succ j =>
      have hj : j + 1 < rest.length := by
        simpa using h
      simp only [vptAux, List.getD_cons_succ]
      exact ih _ _ j hj

/-- C5: on equal-length inputs with at least 2 entries, calculate_obv
returns a fully defined cumulative series of the same length: value 0 at
index 0 and, at each step, the previous value plus the volume when the
close rose, minus it when the close fell, unchanged when equal. -/
theorem calculate_obv_spec (closes volumes : List ℚ)
    (hlen : closes.length = volumes.length) (h2 : 2 ≤ closes.length) :
    (calculate_obv closes volumes).length = closes.length ∧
    (calculate_obv closes volumes).getD 0 none = some 0 ∧
    ∀ i, i + 1 < closes.length →
      ∃ p, (calculate_obv closes volumes).getD i none = some p ∧
        (calculate_obv closes volumes).getD (i + 1) none =
          some (if closes.getD i 0 < closes.getD (i + 1) 0 then
              p + volumes.getD (i + 1) 0
            else if closes.getD (i + 1) 0 < closes.getD i 0 then
              p - volumes.getD (i + 1) 0
            else p) := by
  cases closes with
  | nil => simp at h2
  | cons c cs =>
    cases volumes with
    | nil => simp at hlen
    | cons v vs =>
      have hcv : cs.length = vs.length := by simpa using hlen
      have hguard : ¬((c :: cs).length ≠ (v :: vs).length ∨ (c :: cs).length < 2) := by
        push_neg
        exact ⟨hlen, h2⟩
      have hE : calculate_obv (c :: cs) (v :: vs)
          = some 0 :: (obvAux c 0 (cs.zip vs)).map some := by
        unfold calculate_obv
        rw [if_neg hguard]
      have hAlen : (obvAux c 0 (cs.zip vs)).length = cs.length := by
        rw [obvAux_length, List.length_zip]
        omega
      refine ⟨?_, ?_, ?_⟩
      · rw [hE]
        simp [hAlen]
      · rw [hE]
        rfl
      · intro i hi
        cases i with
        | zero =>
          cases cs with
          | nil => simp at hi
          | cons c1 cs2 =>
            cases vs with
            | nil => simp at hcv
            | cons v1 vs2 =>
              refine ⟨0, by rw [hE]; rfl, ?_⟩
              rw [hE]
              simp only [List.getD_cons_succ]
              rw [getD_map_some _ 0 (by rw [hAlen]; simp)]
              simp [obvAux]
        | succ j =>
          have hj : j + 1 < cs.length := by simpa using hi
          refine ⟨(obvAux c 0 (cs.zip vs)).getD j 0, ?_, ?_⟩
          · rw [hE]
            simp only [List.getD_cons_succ]
            rw [getD_map_some _ j (by omega)]
          · rw [hE]
            simp only [List.getD_cons_succ]
            rw [getD_map_some _ (j + 1) (by omega)]
            rw [obvAux_getD_succ _ _ _ j (by rw [List.length_zip]; omega)]
            rw [getD_zip _ _ j (by omega) (by omega),
              getD_zip _ _ (j + 1) (by omega) (by omega)]

/-- C5 witness: the spec's round-trip scenario, closes
[100,102,101,103,102] with volumes [1000,1200,800,1500,900] give
OBV [0,1200,400,1900,1000]; the seed is proved by applying the theorem. -/
theorem calculate_obv_spec_witness :
    calculate_obv [100, 102, 101, 103, 102] [1000, 1200, 800, 1500, 900]
      = [some 0, some 1200, some 400, some 1900, some 1000] ∧
    (calculate_obv [100, 102, 101, 103, 102] [1000, 1200, 800, 1500, 900]).getD 0 none
      = some 0 :=
  ⟨by with_unfolding_all decide,
    (calculate_obv_spec [100, 102, 101, 103, 102] [1000, 1200, 800, 1500, 900]
      (by decide) (by decide)).2.1⟩

/-- C7: on equal-length inputs with at least 2 entries, calculate_vpt is
total and fully defined: value 0 at index 0 and, at each step, the
previous value plus volume*(close change)/(previous close), except that
a zero previous close leaves the value unchanged (the division is never
taken there). -/
theorem calculate_vpt_spec (closes volumes : List ℚ)
    (hlen : closes.length = volumes.length) (h2 : 2 ≤ closes.length) :
    (calculate_vpt closes volumes).length = closes.length ∧
    (calculate_vpt closes volumes).getD 0 none = some 0 ∧
    ∀ i, i + 1 < closes.length →
      ∃ p, (calculate_vpt closes volumes).getD i none = some p ∧
        (calculate_vpt closes volumes).getD (i + 1) none =
          some (if closes.getD i 0 = 0 then p
            else p + volumes.getD (i + 1) 0 *
              ((closes.getD (i + 1) 0 - closes.getD i 0) / closes.getD i 0)) := by
  cases closes with
  | nil => simp at h2
  | cons c cs =>
    cases volumes with
    | nil => simp at hlen
    | cons v vs =>
      have hcv : cs.length = vs.length := by simpa using hlen
      have hguard : ¬((c :: cs).length ≠ (v :: vs).length ∨ (c :: cs).length < 2) := by
        push_neg
        exact ⟨hlen, h2⟩
      have hE : calculate_vpt (c :: cs) (v :: vs)
          = some 0 :: (vptAux c 0 (cs.zip vs)).map some := by
        unfold calculate_vpt
        rw [if_neg hguard]
      have hAlen : (vptAux c 0 (cs.zip vs)).length = cs.length := by
        rw [vptAux_length, List.length_zip]
        omega
      refine ⟨?_, ?_, ?_⟩
      · rw [hE]
        simp [hAlen]
      · rw [hE]
        rfl
      · intro i hi
        cases i with
        | zero =>
          cases cs with
          | nil => simp at hi
          | cons c1 cs2 =>
            cases vs with
            | nil => simp at hcv
            | cons v1 vs2 =>
              refine ⟨0, by rw [hE]; rfl, ?_⟩
              rw [hE]
              simp only [List.getD_cons_succ]
              rw [getD_map_some _ 0 (by rw [hAlen]; simp)]
              by_cases hc : c = 0
              · simp [vptAux, hc]
              · simp [vptAux, hc]
        | succ j =>
          have hj : j + 1 < cs.length := by simpa using hi
          refine ⟨(vptAux c 0 (cs.zip vs)).getD j 0, ?_, ?_⟩
          · rw [hE]
            simp only [List.getD_cons_succ]
            rw [getD_map_some _ j (by omega)]
          · rw [hE]
            simp only [List.getD_cons_succ]
            rw [getD_map_some _ (j + 1) (by omega)]
            rw [vptAux_getD_succ _ _ _ j (by rw [List.length_zip]; omega)]
            rw [getD_zip _ _ j (by omega) (by omega),
              getD_zip _ _ (j + 1) (by omega) (by omega)]

/-- C7 witness: VPT of a 4-bar series: seed 0 from the theorem and the
full evaluated series, including a step over a zero previous close. -/
theorem calculate_vpt_spec_witness :
    calculate_vpt [100, 102, 0, 103] [1000, 1200, 800, 1500]
      = [some 0, some 24, some (-776), some (-776)] ∧
    (calculate_vpt [100, 102, 0, 103] [1000, 1200, 800, 1500]).getD 0 none = some 0 :=
  ⟨by with_unfolding_all decide,
    (calculate_vpt_spec [100, 102, 0, 103] [1000, 1200, 800, 1500]
      (by decide) (by decide)).2.1⟩

/- ### Lemmas for the RSI claims -/

theorem sum_pos_of_mem (l : List ℚ) (hn : ∀ x ∈ l, 0 ≤ x) (a : ℚ)
    (ha : a ∈ l) (hpos : 0 < a) : 0 < l.sum := by
  induction l with
  | nil => simp at ha
  | cons y ys ih =>
    rw [List.sum_cons]
    rcases List.mem_cons.mp ha with h | h
    · subst h
      have : 0 ≤ ys.sum := List.sum_nonneg fun x hx => hn x (List.mem_cons_of_mem _ hx)
      linarith
    · have hy : 0 ≤ y := hn y (List.mem_cons_self _ _)
      have := ih (fun x hx => hn x (List.mem_cons_of_mem _ hx)) h
      linarith

/-- C2 counterexample: for the strictly increasing 16-point sequence, at
index 13 the trailing 14-window average loss is 0, yet calculate_rsi
produces the defined number 100 there, not an undefined value. -/
theorem calculate_rsi_avg_loss_zero_cex :
    (windowAt 14 (deltaLosses incData16) 13).sum / (14 : ℚ) = 0 ∧
    (calculate_rsi incData16 14).getD 13 none = some 100 := by
  constructor
  · with_unfolding_all decide
  · with_unfolding_all decide

/-- C2 amended: at an index with a full trailing window whose average
loss is 0, calculate_rsi is undefined exactly when the average gain is
also 0 (float 0/0 is NaN); when the average gain is nonzero the float
quotient is +inf and the entry is the defined value 100. -/
theorem calculate_rsi_avg_loss_zero (data : List ℚ) (period : ℕ)
    (hlen : period + 1 ≤ data.length) (i : ℕ) (hi : i < data.length)
    (hwin : period ≤ i + 1)
    (hal : (windowAt period (deltaLosses data) i).sum / (period : ℚ) = 0) :
    (calculate_rsi data period).getD i none =
      if (windowAt period (deltaGains data) i).sum / (period : ℚ) = 0 then none
      else some 100 := by
  have hneg : ¬ data.length < period + 1 := by omega
  unfold calculate_rsi
  rw [if_neg hneg]
  rw [List.getD_eq_getElem _ _ (by simpa using hi), List.getElem_map, List.getElem_range]
  unfold rsiAt
  rw [if_neg (by omega), if_pos hal]

/-- C2 amended witness: at the counterexample input the average gain is
nonzero, so the entry is the defined value 100. -/
theorem calculate_rsi_avg_loss_zero_witness :
    (calculate_rsi incData16 14).getD 13 none =
      if (windowAt 14 (deltaGains incData16) 13).sum / (14 : ℚ) = 0 then none
      else some 100 :=
  calculate_rsi_avg_loss_zero incData16 14 (by decide) 13 (by decide) (by decide)
    (by with_unfolding_all decide)

/-- C6: for every strictly increasing 16-point integer sequence starting
at 100, calculate_rsi with period 14 is defined at index 13 with a value
in [0, 100] that exceeds 50 (the value is 100: the average loss is zero
and the average gain positive, so the float quotient is +inf). -/
theorem calculate_rsi_increasing16 (data : List ℚ)
    (hlen : data.length = 16)
    (hstart : data.getD 0 0 = 100)
    (hint : ∀ i, i < 16 → (data.getD i 0).den = 1)
    (hmono : ∀ i, i < 15 → data.getD i 0 < data.getD (i + 1) 0) :
    definedInRange ((calculate_rsi data 14).getD 13 none) 0 100 50 := by
  have hneg : ¬ data.length < 14 + 1 := by omega
  have h13 : (calculate_rsi data 14).getD 13 none
      = rsiAt 14 (deltaGains data) (deltaLosses data) 13 := by
    unfold calculate_rsi
    rw [if_neg hneg]
    rw [List.getD_eq_getElem _ _ (by simp; omega), List.getElem_map, List.getElem_range]
  have hlosses : ∀ x ∈ windowAt 14 (deltaLosses data) 13, x = 0 := by
    intro x hx
    unfold windowAt at hx
    rw [show (13 + 1 - 14 : ℕ) = 0 from rfl, List.drop_zero] at hx
    have hx2 := List.mem_of_mem_take hx
    unfold deltaLosses at hx2
    rw [List.mem_map] at hx2
    obtain ⟨i, hir, hxe⟩ := hx2
    rw [List.mem_range, hlen] at hir
    by_cases h0 : i = 0
    · rw [← hxe]
      simp [h0]
    · have hieq : i - 1 + 1 = i := by omega
      have hlt := hmono (i - 1) (by omega)
      rw [hieq] at hlt
      rw [← hxe]
      rw [if_neg h0, if_neg (by linarith)]
  have hsum0 : (windowAt 14 (deltaLosses data) 13).sum = 0 := List.sum_eq_zero hlosses
  have hgnonneg : ∀ x ∈ windowAt 14 (deltaGains data) 13, 0 ≤ x := by
    intro x hx
    unfold windowAt at hx
    rw [show (13 + 1 - 14 : ℕ) = 0 from rfl, List.drop_zero] at hx
    have hx2 := List.mem_of_mem_take hx
    unfold deltaGains at hx2
    rw [List.mem_map] at hx2
    obtain ⟨i, hir, hxe⟩ := hx2
    rw [← hxe]
    by_cases h0 : i = 0
    · simp [h0]
    · rw [if_neg h0]
      split
      · linarith
      · exact le_refl 0
  have hglen : (deltaGains data).length = 16 := by
    simp [deltaGains, hlen]
  have hwlen : 1 < (windowAt 14 (deltaGains data) 13).length := by
    unfold windowAt
    rw [show (13 + 1 - 14 : ℕ) = 0 from rfl, List.drop_zero, List.length_take, hglen]
    omega
  have hg1pos : 0 < data.getD 1 0 - data.getD 0 0 := by
    have := hmono 0 (by omega)
    linarith
  have hg1 : (windowAt 14 (deltaGains data) 13).get ⟨1, hwlen⟩
      = data.getD 1 0 - data.getD 0 0 := by
    simp only [windowAt, List.get_eq_getElem,
      show (13 + 1 - 14 : ℕ) = 0 from rfl, List.drop_zero]
    rw [List.getElem_take]
    simp only [deltaGains, List.getElem_map, List.getElem_range]
    rw [if_neg (by omega), if_pos hg1pos]
  have hag : 0 < (windowAt 14 (deltaGains data) 13).sum := by
    apply sum_pos_of_mem _ hgnonneg (data.getD 1 0 - data.getD 0 0)
    · rw [← hg1]
      exact List.get_mem _ _ hwlen
    · exact hg1pos
  rw [h13]
  unfold rsiAt
  rw [if_neg (by omega)]
  rw [if_pos (by rw [hsum0]; norm_num)]
  rw [if_neg (by positivity)]
  unfold definedInRange
  norm_num

/-- C6 witness: the sequence 100..115 gives a defined RSI at index 13 in
[0, 100] and above 50. -/
theorem calculate_rsi_increasing16_witness :
    definedInRange ((calculate_rsi incData16 14).getD 13 none) 0 100 50 :=
  calculate_rsi_increasing16 incData16 (by decide) (by with_unfolding_all decide)
    (by with_unfolding_all decide) (by with_unfolding_all decide)

/- ### Lemmas about the bar store query -/

theorem mem_insertByDate (a b : StockData) (l : List StockData) :
    a ∈ insertByDate b l ↔ a = b ∨ a ∈ l := by
  induction l with
  | nil => simp [insertByDate]
  | cons c cs ih =>
    unfold insertByDate
    split
    · simp
    · simp only [List.mem_cons, ih]
      tauto

theorem mem_sortByDate (a : StockData) (l : List StockData) :
    a ∈ sortByDate l ↔ a ∈ l := by
  induction l with
  | nil => simp [sortByDate]
  | cons b bs ih => simp [sortByDate, mem_insertByDate, ih]

theorem mem_queryBars (b : StockData) (db : List StockData) (s : String) (lo hi : ℤ) :
    b ∈ queryBars db s lo hi ↔
      b ∈ db ∧ (b.symbol = strUpper s ∧ lo ≤ b.date ∧ b.date ≤ hi) := by
  simp [queryBars, mem_sortByDate, List.mem_filter, and_assoc]

theorem windowBars_bounds (db : List StockData) (s : String) (sim : ℤ) (tf : String) :
    barsWithin (calculate_start_date sim tf) sim (windowBars db s sim tf) :=
  fun b hb => ((mem_queryBars b db s _ sim).mp hb).2.2

theorem queryBars_filter_future (db : List StockData) (s : String) (lo hi : ℤ) :
    queryBars (db.filter fun b => decide (b.date ≤ hi)) s lo hi = queryBars db s lo hi := by
  unfold queryBars
  congr 1
  rw [List.filter_filter]
  apply List.filter_congr
  intro b _
  by_cases h : b.date ≤ hi <;> simp [h]

theorem windowBars_filter_future (db : List StockData) (s : String) (sim : ℤ) (tf : String) :
    windowBars (db.filter fun b => decide (b.date ≤ sim)) s sim tf
      = windowBars db s sim tf :=
  queryBars_filter_future db s _ sim

theorem fetchWindow_some (db : List StockData) (s : String) (sim : ℤ) (tf : String) :
    fetchWindow db s (some sim) tf
      = if (windowBars db s sim tf).isEmpty then
          .error ("No data found for " ++ s ++ " in timeframe " ++ tf)
        else .ok (sim, windowBars db s sim tf) := rfl

theorem fetchWindow_none_of_no_bars (db : List StockData) (s tf : String)
    (h : latestBarDate db s = none) :
    fetchWindow db s none tf = .error ("No data found for symbol " ++ s) := by
  unfold fetchWindow resolveSimDate
  rw [h]

theorem fetchWindow_filter_future (db : List StockData) (s : String) (sim : ℤ) (tf : String) :
    fetchWindow (db.filter fun b => decide (b.date ≤ sim)) s (some sim) tf
      = fetchWindow db s (some sim) tf := by
  rw [fetchWindow_some, fetchWindow_some, windowBars_filter_future]

/- ### Per-operation date bounds and future-bar noninterference -/

theorem dates_of_zip_filterMap {β γ : Type} (bars : List StockData) (vals : List β)
    (f : StockData × β → Option γ) (dateOf : γ → ℤ)
    (hf : ∀ b v c, f (b, v) = some c → dateOf c = b.date)
    (lo hi : ℤ) (hbars : barsWithin lo hi bars) :
    datesWithin lo hi (((bars.zip vals).filterMap f).map dateOf) := by
  intro d hd
  rw [List.mem_map] at hd
  obtain ⟨c, hc, rfl⟩ := hd
  rw [List.mem_filterMap] at hc
  obtain ⟨⟨b, v⟩, hmem, hfc⟩ := hc
  rw [hf b v c hfc]
  exact hbars b (List.of_mem_zip hmem).1

theorem dates_of_zip_map {β : Type} (bars : List StockData) (vals : List β)
    (f : StockData × β → IndicatorRow) (hf : ∀ b v, (f (b, v)).date = b.date)
    (lo hi : ℤ) (hbars : barsWithin lo hi bars) :
    datesWithin lo hi (((bars.zip vals).map f).map (·.date)) := by
  intro d hd
  rw [List.mem_map] at hd
  obtain ⟨r, hr, rfl⟩ := hd
  rw [List.mem_map] at hr
  obtain ⟨⟨b, v⟩, hmem, rfl⟩ := hr
  rw [hf b v]
  exact hbars b (List.of_mem_zip hmem).1

theorem get_stock_indicators_dates (db : List StockData) (s : String) (sim : ℤ)
    (tf : String) (p : ℕ) :
    datesWithin (calculate_start_date sim tf) sim
      (indicatorDates (get_stock_indicators db s (some sim) tf p)) := by
  unfold get_stock_indicators
  rw [fetchWindow_some]
  by_cases hw : (windowBars db s sim tf).isEmpty
  · rw [if_pos hw]
    intro d hd
    simp [indicatorDates] at hd
  · rw [if_neg hw]
    simp only [indicatorDates]
    exact dates_of_zip_map _ _ _ (fun b v => rfl) _ _ (windowBars_bounds db s sim tf)

theorem get_ema_data_dates (db : List StockData) (s : String) (p : ℕ) (sim : ℤ)
    (tf : String) :
    datesWithin (calculate_start_date sim tf) sim
      (seriesDates (get_ema_data db s p (some sim) tf)) := by
  unfold get_ema_data
  cases hgsi : get_stock_indicators db s (some sim) tf p with
  | error e =>
    intro d hd
    simp [seriesDates] at hd
  | ok r =>
    intro d hd
    simp only [seriesDates] at hd
    rw [List.mem_map] at hd
    obtain ⟨pt, hpt, rfl⟩ := hd
    rw [List.mem_filterMap] at hpt
    obtain ⟨row, hrow, hfrow⟩ := hpt
    have hdate : pt.1 = row.date := by
      cases he : row.ema with
      | none => rw [he] at hfrow; simp at hfrow
      | some v =>
        rw [he] at hfrow
        rw [← Option.some.inj hfrow]
    have hall := get_stock_indicators_dates db s sim tf p
    rw [hgsi] at hall
    rw [hdate]
    exact hall row.date (by simp only [indicatorDates]; exact List.mem_map_of_mem _ hrow)

theorem get_sma_data_dates (db : List StockData) (s : String) (p : ℕ) (sim : ℤ)
    (tf : String) :
    datesWithin (calculate_start_date sim tf) sim
      (seriesDates (get_sma_data db s p (some sim) tf)) := by
  unfold get_sma_data
  rw [fetchWindow_some]
  by_cases hw : (windowBars db s sim tf).isEmpty
  · rw [if_pos hw]
    intro d hd
    simp [seriesDates] at hd
  · rw [if_neg hw]
    simp only [seriesDates]
    refine dates_of_zip_filterMap _ _ _ _ ?_ _ _ (windowBars_bounds db s sim tf)
    intro b v c h
    cases v with
    | none => simp at h
    | some x => rw [← Option.some.inj h]

theorem get_rsi_data_dates (db : List StockData) (s : String) (p : ℕ) (sim : ℤ)
    (tf : String) :
    datesWithin (calculate_start_date sim tf) sim
      (seriesDates (get_rsi_data db s p (some sim) tf)) := by
  unfold get_rsi_data
  rw [fetchWindow_some]
  by_cases hw : (windowBars db s sim tf).isEmpty
  · rw [if_pos hw]
    intro d hd
    simp [seriesDates] at hd
  · rw [if_neg hw]
    simp only [seriesDates]
    refine dates_of_zip_filterMap _ _ _ _ ?_ _ _ (windowBars_bounds db s sim tf)
    intro b v c h
    cases v with
    | none => simp at h
    | some x => rw [← Option.some.inj h]

theorem get_vix_data_dates (db : List StockData) (s : String) (p : ℕ) (sim : ℤ)
    (tf : String) :
    datesWithin (calculate_start_date sim tf) sim
      (seriesDates (get_vix_data db s p (some sim) tf)) := by
  unfold get_vix_data
  rw [fetchWindow_some]
  by_cases hw : (windowBars db s sim tf).isEmpty
  · rw [if_pos hw]
    intro d hd
    simp [seriesDates] at hd
  · rw [if_neg hw]
    simp only [seriesDates]
    refine dates_of_zip_filterMap _ _ _ _ ?_ _ _ (windowBars_bounds db s sim tf)
    intro b v c h
    cases v with
    | none => simp at h
    | some x => rw [← Option.some.inj h]

theorem get_obv_data_dates (db : List StockData) (s : String) (sim : ℤ) (tf : String) :
    datesWithin (calculate_start_date sim tf) sim
      (volumeSeriesDates (get_obv_data db s (some sim) tf)) := by
  unfold get_obv_data
  rw [fetchWindow_some]
  by_cases hw : (windowBars db s sim tf).isEmpty
  · rw [if_pos hw]
    intro d hd
    simp [volumeSeriesDates] at hd
  · rw [if_neg hw]
    simp only [volumeSeriesDates]
    refine dates_of_zip_filterMap _ _ _ _ ?_ _ _ (windowBars_bounds db s sim tf)
    intro b v c h
    cases v with
    | none => simp at h
    | some x => rw [← Option.some.inj h]

theorem get_vpt_data_dates (db : List StockData) (s : String) (sim : ℤ) (tf : String) :
    datesWithin (calculate_start_date sim tf) sim
      (volumeSeriesDates (get_vpt_data db s (some sim) tf)) := by
  unfold get_vpt_data
  rw [fetchWindow_some]
  by_cases hw : (windowBars db s sim tf).isEmpty
  · rw [if_pos hw]
    intro d hd
    simp [volumeSeriesDates] at hd
  · rw [if_neg hw]
    simp only [volumeSeriesDates]
    refine dates_of_zip_filterMap _ _ _ _ ?_ _ _ (windowBars_bounds db s sim tf)
    intro b v c h
    cases v with
    | none => simp at h
    | some x => rw [← Option.some.inj h]

theorem get_macd_data_dates (db : List StockData) (s : String)
    (fp sp sigp : ℕ) (sim : ℤ) (tf : String) :
    datesWithin (calculate_start_date sim tf) sim
      (macdDates (get_macd_data db s fp sp sigp (some sim) tf)) := by
  unfold get_macd_data
  rw [fetchWindow_some]
  by_cases hw : (windowBars db s sim tf).isEmpty
  · rw [if_pos hw]
    intro d hd
    simp [macdDates] at hd
  · rw [if_neg hw]
    simp only [macdDates]
    refine dates_of_zip_filterMap _ _ _ _ ?_ _ _ (windowBars_bounds db s sim tf)
    intro b v c h
    cases hv : v.1 with
    | none => rw [hv] at h; simp at h
    | some x =>
      rw [hv] at h
      rw [← Option.some.inj h]

theorem get_stock_indicators_filter_future (db : List StockData) (s : String)
    (sim : ℤ) (tf : String) (p : ℕ) :
    get_stock_indicators (db.filter fun b => decide (b.date ≤ sim)) s (some sim) tf p
      = get_stock_indicators db s (some sim) tf p := by
  unfold get_stock_indicators
  rw [fetchWindow_filter_future]

theorem get_ema_data_filter_future (db : List StockData) (s : String) (p : ℕ)
    (sim : ℤ) (tf : String) :
    get_ema_data (db.filter fun b => decide (b.date ≤ sim)) s p (some sim) tf
      = get_ema_data db s p (some sim) tf := by
  unfold get_ema_data
  rw [get_stock_indicators_filter_future]

theorem get_macd_data_filter_future (db : List StockData) (s : String)
    (fp sp sigp : ℕ) (sim : ℤ) (tf : String) :
    get_macd_data (db.filter fun b => decide (b.date ≤ sim)) s fp sp sigp (some sim) tf
      = get_macd_data db s fp sp sigp (some sim) tf := by
  unfold get_macd_data
  rw [fetchWindow_filter_future]

theorem get_sma_data_filter_future (db : List StockData) (s : String) (p : ℕ)
    (sim : ℤ) (tf : String) :
    get_sma_data (db.filter fun b => decide (b.date ≤ sim)) s p (some sim) tf
      = get_sma_data db s p (some sim) tf := by
  unfold get_sma_data
  rw [fetchWindow_filter_future]

theorem get_rsi_data_filter_future (db : List StockData) (s : String) (p : ℕ)
    (sim : ℤ) (tf : String) :
    get_rsi_data (db.filter fun b => decide (b.date ≤ sim)) s p (some sim) tf
      = get_rsi_data db s p (some sim) tf := by
  unfold get_rsi_data
  rw [fetchWindow_filter_future]

theorem get_obv_data_filter_future (db : List StockData) (s : String)
    (sim : ℤ) (tf : String) :
    get_obv_data (db.filter fun b => decide (b.date ≤ sim)) s (some sim) tf
      = get_obv_data db s (some sim) tf := by
  unfold get_obv_data
  rw [fetchWindow_filter_future]

theorem get_vpt_data_filter_future (db : List StockData) (s : String)
    (sim : ℤ) (tf : String) :
    get_vpt_data (db.filter fun b => decide (b.date ≤ sim)) s (some sim) tf
      = get_vpt_data db s (some sim) tf := by
  unfold get_vpt_data
  rw [fetchWindow_filter_future]

theorem get_vix_data_filter_future (db : List StockData) (s : String) (p : ℕ)
    (sim : ℤ) (tf : String) :
    get_vix_data (db.filter fun b => decide (b.date ≤ sim)) s p (some sim) tf
      = get_vix_data db s p (some sim) tf := by
  unfold get_vix_data
  rw [fetchWindow_filter_future]

/-- C1: no look-ahead.  For every store, symbol, given simulated date,
timeframe and periods: every bar the window query returns is dated in
[start date, simulated date]; every point in the data collection
returned by each of the eight indicator operations is dated in that
window; and deleting every bar dated after the simulated date from the
store changes none of the eight results, so no future bar influences
any returned value. -/
theorem indicators_no_lookahead (db : List StockData) (s : String) (sim : ℤ)
    (tf : String) (ema_p sma_p rsi_p vix_p fp sp sigp : ℕ) :
    barsWithin (calculate_start_date sim tf) sim (windowBars db s sim tf) ∧
    (datesWithin (calculate_start_date sim tf) sim
        (indicatorDates (get_stock_indicators db s (some sim) tf ema_p)) ∧
      datesWithin (calculate_start_date sim tf) sim
        (seriesDates (get_ema_data db s ema_p (some sim) tf)) ∧
      datesWithin (calculate_start_date sim tf) sim
        (seriesDates (get_sma_data db s sma_p (some sim) tf)) ∧
      datesWithin (calculate_start_date sim tf) sim
        (seriesDates (get_rsi_data db s rsi_p (some sim) tf)) ∧
      datesWithin (calculate_start_date sim tf) sim
        (volumeSeriesDates (get_obv_data db s (some sim) tf)) ∧
      datesWithin (calculate_start_date sim tf) sim
        (volumeSeriesDates (get_vpt_data db s (some sim) tf)) ∧
      datesWithin (calculate_start_date sim tf) sim
        (seriesDates (get_vix_data db s vix_p (some sim) tf)) ∧
      datesWithin (calculate_start_date sim tf) sim
        (macdDates (get_macd_data db s fp sp sigp (some sim) tf))) ∧
    (get_stock_indicators (db.filter fun b => decide (b.date ≤ sim)) s (some sim) tf ema_p
        = get_stock_indicators db s (some sim) tf ema_p ∧
      get_ema_data (db.filter fun b => decide (b.date ≤ sim)) s ema_p (some sim) tf
        = get_ema_data db s ema_p (some sim) tf ∧
      get_sma_data (db.filter fun b => decide (b.date ≤ sim)) s sma_p (some sim) tf
        = get_sma_data db s sma_p (some sim) tf ∧
      get_rsi_data (db.filter fun b => decide (b.date ≤ sim)) s rsi_p (some sim) tf
        = get_rsi_data db s rsi_p (some sim) tf ∧
      get_obv_data (db.filter fun b => decide (b.date ≤ sim)) s (some sim) tf
        = get_obv_data db s (some sim) tf ∧
      get_vpt_data (db.filter fun b => decide (b.date ≤ sim)) s (some sim) tf
        = get_vpt_data db s (some sim) tf ∧
      get_vix_data (db.filter fun b => decide (b.date ≤ sim)) s vix_p (some sim) tf
        = get_vix_data db s vix_p (some sim) tf ∧
      get_macd_data (db.filter fun b => decide (b.date ≤ sim)) s fp sp sigp (some sim) tf
        = get_macd_data db s fp sp sigp (some sim) tf) :=
  ⟨windowBars_bounds db s sim tf,
    ⟨get_stock_indicators_dates db s sim tf ema_p,
      get_ema_data_dates db s ema_p sim tf,
      get_sma_data_dates db s sma_p sim tf,
      get_rsi_data_dates db s rsi_p sim tf,
      get_obv_data_dates db s sim tf,
      get_vpt_data_dates db s sim tf,
      get_vix_data_dates db s vix_p sim tf,
      get_macd_data_dates db s fp sp sigp sim tf⟩,
    ⟨get_stock_indicators_filter_future db s sim tf ema_p,
      get_ema_data_filter_future db s ema_p sim tf,
      get_sma_data_filter_future db s sma_p sim tf,
      get_rsi_data_filter_future db s rsi_p sim tf,
      get_obv_data_filter_future db s sim tf,
      get_vpt_data_filter_future db s sim tf,
      get_vix_data_filter_future db s vix_p sim tf,
      get_macd_data_filter_future db s fp sp sigp sim tf⟩⟩

/-- C9: for get_sma_data and get_rsi_data (period >= 1, as pandas
rejects smaller windows): when bars fall in the resolved window the
result is never an error, and when additionally the calculator defines
no value at any index the result is the ok payload with an empty data
collection; an error is produced exactly when no bars fall in the window
or (with no simulated date given) no bars exist for the symbol at all. -/
theorem sma_rsi_empty_vs_error (db : List StockData) (s : String) (period : ℕ)
    (hp : 1 ≤ period) (sim : ℤ) (tf : String) :
    (windowBars db s sim tf = [] →
      (get_sma_data db s period (some sim) tf).isOk = false ∧
      (get_rsi_data db s period (some sim) tf).isOk = false) ∧
    (windowBars db s sim tf ≠ [] →
      (get_sma_data db s period (some sim) tf).isOk = true ∧
      (get_rsi_data db s period (some sim) tf).isOk = true) ∧
    (windowBars db s sim tf ≠ [] →
      (∀ v ∈ calculate_sma ((windowBars db s sim tf).map (·.close)) period, v = none) →
      get_sma_data db s period (some sim) tf = .ok ⟨strUpper s, period, []⟩) ∧
    (windowBars db s sim tf ≠ [] →
      (∀ v ∈ calculate_rsi ((windowBars db s sim tf).map (·.close)) period, v = none) →
      get_rsi_data db s period (some sim) tf = .ok ⟨strUpper s, period, []⟩) ∧
    (latestBarDate db s = none →
      (get_sma_data db s period none tf).isOk = false ∧
      (get_rsi_data db s period none tf).isOk = false) := by
  refine ⟨?_, ?_, ?_, ?_, ?_⟩
  · intro h
    have hw : (windowBars db s sim tf).isEmpty = true := List.isEmpty_iff.mpr h
    constructor
    · unfold get_sma_data
      rw [fetchWindow_some, if_pos hw]
      rfl
    · unfold get_rsi_data
      rw [fetchWindow_some, if_pos hw]
      rfl
  · intro h
    have hw : (windowBars db s sim tf).isEmpty = false := by
      cases hW : windowBars db s sim tf with
      | nil => exact absurd hW h
      | cons a l => rfl
    constructor
    · unfold get_sma_data
      rw [fetchWindow_some, if_neg (by simp [hw])]
      rfl
    · unfold get_rsi_data
      rw [fetchWindow_some, if_neg (by simp [hw])]
      rfl
  · intro h hall
    have hw : (windowBars db s sim tf).isEmpty = false := by
      cases hW : windowBars db s sim tf with
      | nil => exact absurd hW h
      | cons a l => rfl
    unfold get_sma_data
    rw [fetchWindow_some, if_neg (by simp [hw])]
    have hnil : ((windowBars db s sim tf).zip
        (calculate_sma ((windowBars db s sim tf).map (·.close)) period)).filterMap
        (fun bv => bv.2.map fun v => (bv.1.date, v)) = [] := by
      rw [List.filterMap_eq_nil_iff]
      intro bv hbv
      have hv := hall bv.2 (List.of_mem_zip hbv).2
      rw [hv]
      rfl
    show (Except.ok ⟨strUpper s, period,
        ((windowBars db s sim tf).zip
          (calculate_sma ((windowBars db s sim tf).map (·.close)) period)).filterMap
          (fun bv => bv.2.map fun v => (bv.1.date, v))⟩ :
        Except String SeriesResult)
      = .ok ⟨strUpper s, period, []⟩
    rw [hnil]
  · intro h hall
    have hw : (windowBars db s sim tf).isEmpty = false := by
      cases hW : windowBars db s sim tf with
      | nil => exact absurd hW h
      | cons a l => rfl
    unfold get_rsi_data
    rw [fetchWindow_some, if_neg (by simp [hw])]
    have hnil : ((windowBars db s sim tf).zip
        (calculate_rsi ((windowBars db s sim tf).map (·.close)) period)).filterMap
        (fun bv => bv.2.map fun v => (bv.1.date, v)) = [] := by
      rw [List.filterMap_eq_nil_iff]
      intro bv hbv
      have hv := hall bv.2 (List.of_mem_zip hbv).2
      rw [hv]
      rfl
    show (Except.ok ⟨strUpper s, period,
        ((windowBars db s sim tf).zip
          (calculate_rsi ((windowBars db s sim tf).map (·.close)) period)).filterMap
          (fun bv => bv.2.map fun v => (bv.1.date, v))⟩ :
        Except String SeriesResult)
      = .ok ⟨strUpper s, period, []⟩
    rw [hnil]
  · intro h
    constructor
    · unfold get_sma_data
      rw [fetchWindow_none_of_no_bars db s tf h]
      rfl
    · unfold get_rsi_data
      rw [fetchWindow_none_of_no_bars db s tf h]
      rfl

/-- C9 witness: a two-bar window with period 20 defines no SMA or RSI
value, and both operations return ok payloads with empty data. -/
theorem sma_rsi_empty_vs_error_witness :
    get_sma_data wDb "tsla" 20 (some 738050) "1Y"
      = .ok ⟨strUpper "tsla", 20, []⟩ ∧
    get_rsi_data wDb "tsla" 20 (some 738050) "1Y"
      = .ok ⟨strUpper "tsla", 20, []⟩ := by
  have h := sma_rsi_empty_vs_error wDb "tsla" 20 (by decide) 738050 "1Y"
  exact ⟨h.2.2.1 (by with_unfolding_all decide) (by with_unfolding_all decide),
    h.2.2.2.1 (by with_unfolding_all decide) (by with_unfolding_all decide)⟩
